import Mathlib

/-!
Verification model of the `CodeAgent` control loop and filesystem sandbox
from `code_agent.py` and `code_agent_poml.py`.

Paths are modelled as strings; the OS path canonicalization performed by
`pathlib.Path.resolve` is modelled lexically (no symlinks) on slash-separated
components.  The filesystem (an external OS boundary in the source) is an
explicit finite structure: a content map for regular files plus a set of
directories.  All agent operations are pure state transformers on
`AgentState`, translated clause by clause from the Python source.
-/

/-- Split a string on `'/'` characters into its character-list segments. -/
def splitSlash : List Char → List Char → List (List Char)
  | cur, [] => [cur.reverse]
  | cur, c :: rest =>
    if c = '/' then cur.reverse :: splitSlash [] rest
    else splitSlash (c :: cur) rest

/-- Path components of a string: split on `'/'`, dropping empty segments
(as `pathlib` does for repeated or trailing separators). -/
def splitPath (s : String) : List String :=
  ((splitSlash [] s.data).map (fun l => String.mk l)).filter (fun c => c ≠ "")

/-- Lexical canonicalization of absolute-path components: drops `.` and empty
segments and resolves `..` against the accumulated prefix, clamping at the
filesystem root exactly as POSIX resolution does (`/.. = /`).  This models
`pathlib.Path.resolve` on a symlink-free filesystem. -/
def canonAux : List String → List String → List String
  | acc, [] => acc.reverse
  | acc, c :: rest =>
    if c = "" ∨ c = "." then canonAux acc rest
    else if c = ".." then canonAux (acc.drop 1) rest
    else canonAux (c :: acc) rest

/-- Canonicalize a list of absolute-path components. -/
def canon (cs : List String) : List String := canonAux [] cs

/-- Join components with `'/'` separators. -/
def joinSlash : List String → String
  | [] => ""
  | [c] => c
  | c :: rest => c ++ "/" ++ joinSlash rest

/-- String representation of an absolute path given by its components,
matching `str(Path(...))`: `"/"` for the root, `"/a/b"` otherwise. -/
def render (cs : List String) : String :=
  if cs.isEmpty then "/" else "/" ++ joinSlash cs

/-- Models Python `str.startswith`: the second string is a prefix of the
first. -/
def pyStartsWith (s pre : String) : Bool :=
  List.isPrefixOf pre.data s.data

/-- Models `pathlib` path joining (`base / rel` followed by `str`): an
absolute right operand replaces the base, an empty right operand is ignored,
otherwise the two are joined with a separator. -/
def pyJoin (base rel : String) : String :=
  if pyStartsWith rel "/" then rel
  else if rel = "" then base
  else base ++ "/" ++ rel

/-- Components of `(repo / fp).resolve()`: resolve `fp` against the already
resolved repo-root components, or on its own if absolute. -/
def resolveComps (repo : List String) (fp : String) : List String :=
  if pyStartsWith fp "/" then canon (splitPath fp)
  else canon (repo ++ splitPath fp)

/-- Skeleton of `CodeAgent._validate_path_in_repo` (identical in
`code_agent.py` and `code_agent_poml.py`), generic over the resolution step:
the `try` block computes `str(full_path.resolve())` and
`str(self.repo_path.resolve())` (either of which may raise) and the guard
returns the `startswith` comparison of the two; the `except` arm returns
`False`. -/
def validate_path_in_repo_gen (resolver : String → Except Unit (String × String))
    (file_path : String) : Bool :=
  match resolver file_path with
  | .ok (resolved_path, repo_resolved) => pyStartsWith resolved_path repo_resolved
  | .error _ => false

/-- The lexical (symlink-free, error-free) resolver used by the in-model
filesystem: canonicalize `repo / fp` and the repo root. -/
def lexResolver (repo : List String) (fp : String) :
    Except Unit (String × String) :=
  .ok (render (resolveComps repo fp), render (canon repo))

/-- Python-set insertion on a membership-deduplicated list. -/
def insertSet (x : String) (l : List String) : List String :=
  if x ∈ l then l else l ++ [x]

/-- Python-dict assignment `m[k] = v`: overwrite in place if the key is
present, append otherwise. -/
def dictInsert (k v : String) (m : List (String × String)) :
    List (String × String) :=
  if (m.lookup k).isSome then
    m.map (fun kv => if kv.1 = k then (k, v) else kv)
  else m ++ [(k, v)]

/-- Python-dict deletion `del m[k]` / set `discard`: drop every binding of
the key (a Python dict or set holds at most one). -/
def dictEraseKey (k : String) (m : List (String × String)) :
    List (String × String) :=
  m.filter (fun kv => kv.1 ≠ k)

/-- Python-set `discard`. -/
def setErase (x : String) (l : List String) : List String :=
  l.filter (fun y => y ≠ x)

/-- Models `list(set(l))`, with the unspecified Python set iteration order
fixed as first-occurrence order. -/
def dedupFirst (l : List String) : List String :=
  l.foldl (fun acc x => if x ∈ acc then acc else acc ++ [x]) []

/-- The repository filesystem, an external OS boundary of the source:
a finite map from absolute path strings to file contents, plus the set of
directories. -/
structure FS where
  files : List (String × String)
  dirs : List String
  deriving DecidableEq, Repr

/-- `Path.is_file()`. -/
def FS.isFile (fs : FS) (p : String) : Bool := (fs.files.lookup p).isSome

/-- `Path.is_dir()`. -/
def FS.isDir (fs : FS) (p : String) : Bool := fs.dirs.contains p

/-- `Path.exists()`. -/
def FS.pathExists (fs : FS) (p : String) : Bool := fs.isFile p || fs.isDir p

/-- `open(p, "w").write(c)`: create or overwrite the regular file at `p`. -/
def FS.writeFile (fs : FS) (p c : String) : FS :=
  { fs with files := dictInsert p c fs.files }

/-- `Path.unlink()` on a regular file. -/
def FS.eraseFile (fs : FS) (p : String) : FS :=
  { fs with files := dictEraseKey p fs.files }

/-- Strict ancestor directories of a path string, innermost last:
`/a/b/c.txt ↦ [/a, /a/b]`. -/
def ancestorsAux (base : String) : List String → List String
  | [] => []
  | c :: rest => (base ++ "/" ++ c) :: ancestorsAux (base ++ "/" ++ c) rest

/-- Directories created by `full_path.parent.mkdir(parents=True,
exist_ok=True)`. -/
def parentDirsOf (p : String) : List String :=
  ancestorsAux "" (splitPath p).dropLast

/-- Apply `mkdir(parents=True, exist_ok=True)` for the parent of `p`. -/
def FS.mkdirParents (fs : FS) (p : String) : FS :=
  { fs with dirs := (parentDirsOf p).foldl (fun ds d => insertSet d ds) fs.dirs }

/-- Enumeration performed by the `os.walk` loop in
`CodeAgent.walk_directory`: every regular file strictly below `target` whose
path below `target` passes the hidden/ignored-directory pruning and whose
filename is not hidden, reported relative to the repository root, in the
order the filesystem lists its files. -/
def ignoredDir (d : String) : Bool :=
  pyStartsWith d "." ||
    d ∈ ["__pycache__", "node_modules", "venv", "env", ".git"]

/-- Visibility of the path segments of a file below the walk target: every
intermediate directory survives the `dirs[:]` pruning and the filename does
not start with a dot. -/
def visibleSegs : List String → Bool
  | [] => false
  | [f] => !(pyStartsWith f ".")
  | d :: rest => !(ignoredDir d) && visibleSegs rest

/-- The file list produced by the `os.walk` loop of `walk_directory`. -/
def FS.walkFiles (fs : FS) (target repoStr : String) : List String :=
  (fs.files.map Prod.fst).filterMap (fun p =>
    if pyStartsWith p (target ++ "/") &&
        visibleSegs (splitPath (p.drop (target.length + 1)))
    then some (p.drop (repoStr.length + 1)) else none)

/-- `AgentMemory` from the source: tracking sets, content cache and findings. -/
structure AgentMemory where
  read_files : List String := []
  edited_files : List String := []
  walked_directories : List String := []
  file_contents_cache : List (String × String) := []
  important_findings : List String := []
  deriving DecidableEq, Repr

/-- `FileRequest` from `code_agent_poml.py`. -/
structure FileRequest where
  relative_path : String
  absolute_path : String
  deriving DecidableEq, Repr

/-- The mutable state of a `CodeAgent` instance together with the repository
filesystem it acts on.  `repo` holds the components of the already resolved
`self.repo_path`; `requested_files`/`requested_dirs` exist only in the
deferred (`code_agent_poml.py`) variant. -/
structure AgentState where
  repo : List String
  fs : FS
  memory : AgentMemory := {}
  requested_files : List FileRequest := []
  requested_dirs : List FileRequest := []
  deriving DecidableEq, Repr

/-- `str(self.repo_path)`. -/
def AgentState.repoStr (st : AgentState) : String := render st.repo

/-- `CodeAgent._validate_path_in_repo` with the in-model lexical resolver. -/
def AgentState.validatePath (st : AgentState) (file_path : String) : Bool :=
  validate_path_in_repo_gen (lexResolver st.repo) file_path

/-- `CodeAgent.walk_directory`: warn-and-return-empty on a missing
directory, return empty without rewalking when already recorded, otherwise
enumerate files and record the absolute target in `walked_directories`. -/
def walk_directory (st : AgentState) (subdirectory : String) :
    List String × AgentState :=
  let target := if subdirectory = "" then st.repoStr
                else pyJoin st.repoStr subdirectory
  if !st.fs.pathExists target then ([], st)
  else if st.memory.walked_directories.contains target then ([], st)
  else
    (st.fs.walkFiles target st.repoStr,
     { st with memory := { st.memory with
        walked_directories := insertSet target st.memory.walked_directories } })

/-- One iteration of the `for file_path in file_paths` loop of
`CodeAgent.read_files`, threading the contents dict and the agent state.
The source serves the cache only when the path is in **both**
`memory.read_files` and `memory.file_contents_cache`; otherwise it skips
missing paths and non-files silently and reads from disk, caching the
content and marking the path read. -/
def read_files_go (s : AgentState) (contents : List (String × String)) :
    List String → List (String × String) × AgentState
  | [] => (contents, s)
  | p :: rest =>
    match (if p ∈ s.memory.read_files then
             s.memory.file_contents_cache.lookup p else none) with
    | some c => read_files_go s (dictInsert p c contents) rest
    | none =>
      if !s.fs.pathExists (pyJoin s.repoStr p) then read_files_go s contents rest
      else if !s.fs.isFile (pyJoin s.repoStr p) then read_files_go s contents rest
      else
        match s.fs.files.lookup (pyJoin s.repoStr p) with
        | some c =>
          read_files_go
            { s with memory := { s.memory with
                file_contents_cache := dictInsert p c s.memory.file_contents_cache,
                read_files := insertSet p s.memory.read_files } }
            (dictInsert p c contents) rest
        | none => read_files_go s contents rest

/-- `CodeAgent.read_files`. -/
def read_files_op (st : AgentState) (file_paths : List String) :
    List (String × String) × AgentState :=
  read_files_go st [] file_paths

/-- The result dict built by `CodeAgent.explore_repository`. -/
structure ExploreResult where
  discovered_files : List String := []
  file_contents : List (String × String) := []
  directories_explored : List String := []
  files_read : Nat := 0
  deriving DecidableEq, Repr

/-- The `for directory in directories` loop of `explore_repository`:
walk each nonempty directory not yet in `walked_directories` (checked
against the *relative* name, while `walk_directory` records the absolute
target), accumulating discovered files and explored directories. -/
def explore_dirs_go (s : AgentState) (disc explored : List String) :
    List String → List String × List String × AgentState
  | [] => (disc, explored, s)
  | d :: rest =>
    if d ≠ "" && !(s.memory.walked_directories.contains d) then
      let (found, s') := walk_directory s d
      explore_dirs_go s' (disc ++ found) (explored ++ [d]) rest
    else explore_dirs_go s disc explored rest

/-- `CodeAgent.explore_repository`: walk, union explicit files with the
discovered ones (`list(set(...))`, modelled in first-occurrence order),
truncate to `max_files` **before** reading, read the truncated list, and
append one summary finding when the candidate list was nonempty. -/
def explore_repository (st : AgentState) (directories files : List String)
    (max_files : Nat) : ExploreResult × AgentState :=
  let walked := explore_dirs_go st [] [] directories
  let all_discovered := walked.1
  let explored := walked.2.1
  let st1 := walked.2.2
  let files_to_read := dedupFirst (files ++ all_discovered)
  let truncated := files_to_read.take max_files
  if files_to_read.isEmpty then
    ({ discovered_files := truncated, file_contents := [],
       directories_explored := explored, files_read := 0 }, st1)
  else
    let readRes := read_files_op st1 truncated
    let contents := readRes.1
    let st2 := readRes.2
    let finding :=
      "Explored " ++ toString explored.length ++ " directories, discovered " ++
      toString all_discovered.length ++ " files, read " ++
      toString contents.length ++ " files"
    ({ discovered_files := truncated, file_contents := contents,
       directories_explored := explored, files_read := contents.length },
     { st2 with memory := { st2.memory with
        important_findings := st2.memory.important_findings ++ [finding] } })

/-- `CodeAgent.edit_file`: guard check, require the file to exist, then
overwrite, mark edited and update the cache.  Writing over a path that
exists but is not a regular file raises in Python and is caught, yielding
`False` with no state change. -/
def edit_file (st : AgentState) (file_path new_content : String) :
    Bool × AgentState :=
  if !st.validatePath file_path then (false, st)
  else if !st.fs.pathExists (pyJoin st.repoStr file_path) then (false, st)
  else if !st.fs.isFile (pyJoin st.repoStr file_path) then (false, st)
  else
    (true,
     { st with fs := st.fs.writeFile (pyJoin st.repoStr file_path) new_content,
               memory := { st.memory with
                 edited_files := insertSet file_path st.memory.edited_files,
                 file_contents_cache :=
                   dictInsert file_path new_content
                     st.memory.file_contents_cache } })

/-- `CodeAgent.add_file`: guard check, require the path to NOT exist,
create parent directories, write, and cache the content (the path is not
marked as read). -/
def add_file (st : AgentState) (file_path content : String) :
    Bool × AgentState :=
  if !st.validatePath file_path then (false, st)
  else if st.fs.pathExists (pyJoin st.repoStr file_path) then (false, st)
  else
    (true,
     { st with fs := (st.fs.mkdirParents
                 (pyJoin st.repoStr file_path)).writeFile
                 (pyJoin st.repoStr file_path) content,
               memory := { st.memory with
                 file_contents_cache :=
                   dictInsert file_path content
                     st.memory.file_contents_cache } })

/-- `CodeAgent.remove_file`: guard check, require the path to exist, unlink
it, then purge it from the cache, `read_files` and `edited_files`.
`unlink` on a directory raises and is caught, yielding `False` with no
state change. -/
def remove_file (st : AgentState) (file_path : String) :
    Bool × AgentState :=
  if !st.validatePath file_path then (false, st)
  else if !st.fs.pathExists (pyJoin st.repoStr file_path) then (false, st)
  else if !st.fs.isFile (pyJoin st.repoStr file_path) then (false, st)
  else
    (true,
     { st with fs := st.fs.eraseFile (pyJoin st.repoStr file_path),
               memory := { st.memory with
                 file_contents_cache :=
                   dictEraseKey file_path st.memory.file_contents_cache,
                 read_files := setErase file_path st.memory.read_files,
                 edited_files := setErase file_path st.memory.edited_files } })

/-- `ThoughtProcess` from the source. -/
structure ThoughtProcess where
  observation : String := ""
  analysis : String := ""
  plan : String := ""
  deriving DecidableEq, Repr

/-- `ExploreAction`.  `max_files` exists only in the eager
(`code_agent.py`) variant; the deferred variant ignores it. -/
structure ExploreAction where
  directories : List String := []
  files : List String := []
  max_files : Nat := 20
  deriving DecidableEq, Repr

/-- `FileEditAction`. -/
structure FileEditAction where
  file_path : String
  content : String
  deriving DecidableEq, Repr

/-- `FileAddAction`. -/
structure FileAddAction where
  file_path : String
  content : String
  deriving DecidableEq, Repr

/-- `FileRemoveAction`. -/
structure FileRemoveAction where
  file_path : String
  deriving DecidableEq, Repr

/-- The `Literal["explore", "edit_file", "add_file", "remove_file"]`
action tag. -/
inductive ActionType where
  | explore
  | editFile
  | addFile
  | removeFile
  deriving DecidableEq, Repr

/-- The string the source stores in the run record for each tag. -/
def ActionType.asString : ActionType → String
  | .explore => "explore"
  | .editFile => "edit_file"
  | .addFile => "add_file"
  | .removeFile => "remove_file"

/-- `AgentAction` from the source.  `findings` exists only in the deferred
(`code_agent_poml.py`) variant; the eager variant ignores it. -/
structure AgentAction where
  thought_process : ThoughtProcess := {}
  action_type : ActionType
  explore : Option ExploreAction := none
  edit_file : Option FileEditAction := none
  add_file : Option FileAddAction := none
  remove_file : Option FileRemoveAction := none
  findings : List String := []
  complete : Bool := false
  deriving DecidableEq, Repr

/-- Pure tail of `CodeAgent.decide_next_action` (identical in both
variants), applied to the parsed oracle response: a missing/falsy response
gives `None`, a response with `complete=True` gives `None`, otherwise the
action is returned. -/
def decide_next_action (response : Option AgentAction) : Option AgentAction :=
  match response with
  | none => none
  | some r => if r.complete then none else some r

/-- `CodeAgent.execute_action` of the eager variant (`code_agent.py`):
dispatch on the tag, fail on a missing payload, delegate to the matching
filesystem operation; an explore always reports success. -/
def execute_action (a : AgentAction) (st : AgentState) : Bool × AgentState :=
  match a.action_type with
  | .explore =>
    match a.explore with
    | none => (false, st)
    | some e =>
      let r := explore_repository st e.directories e.files e.max_files
      (true, r.2)
  | .editFile =>
    match a.edit_file with
    | none => (false, st)
    | some p => edit_file st p.file_path p.content
  | .addFile =>
    match a.add_file with
    | none => (false, st)
    | some p => add_file st p.file_path p.content
  | .removeFile =>
    match a.remove_file with
    | none => (false, st)
    | some p => remove_file st p.file_path

/-- The `for dir_path in action.explore.directories` loop of the deferred
variant's `execute_action`: skip paths failing the guard, record existing
directories into `walked_directories` (by *relative* name) and into
`requested_dirs`; missing ones are only logged. -/
def poml_explore_dirs (s : AgentState) : List String → AgentState
  | [] => s
  | d :: rest =>
    if !s.validatePath d then poml_explore_dirs s rest
    else
      let full := pyJoin s.repoStr d
      if s.fs.pathExists full && s.fs.isDir full then
        poml_explore_dirs
          { s with
            memory := { s.memory with
              walked_directories := insertSet d s.memory.walked_directories },
            requested_dirs := s.requested_dirs ++
              [{ relative_path := d,
                 absolute_path := render (resolveComps s.repo d) }] } rest
      else poml_explore_dirs s rest

/-- The `for file_path in action.explore.files` loop of the deferred
variant's `execute_action`: skip paths failing the guard, record existing
regular files into `read_files` and `requested_files`; missing ones are
only logged. -/
def poml_explore_files (s : AgentState) : List String → AgentState
  | [] => s
  | f :: rest =>
    if !s.validatePath f then poml_explore_files s rest
    else
      let full := pyJoin s.repoStr f
      if s.fs.pathExists full && s.fs.isFile full then
        poml_explore_files
          { s with
            memory := { s.memory with
              read_files := insertSet f s.memory.read_files },
            requested_files := s.requested_files ++
              [{ relative_path := f,
                 absolute_path := render (resolveComps s.repo f) }] } rest
      else poml_explore_files s rest

/-- `CodeAgent.execute_action` of the deferred variant
(`code_agent_poml.py`): first extend `important_findings` with the action's
findings and reset both request lists, then dispatch.  The explore branch
records requests and returns `True` unconditionally. -/
def execute_action_poml (a : AgentAction) (st : AgentState) :
    Bool × AgentState :=
  let st0 := { st with
    memory := { st.memory with
      important_findings := st.memory.important_findings ++ a.findings },
    requested_dirs := [], requested_files := [] }
  match a.action_type with
  | .explore =>
    match a.explore with
    | none => (false, st0)
    | some e =>
      let s1 := poml_explore_dirs st0 e.directories
      let s2 := poml_explore_files s1 e.files
      (true, s2)
  | .editFile =>
    match a.edit_file with
    | none => (false, st0)
    | some p => edit_file st0 p.file_path p.content
  | .addFile =>
    match a.add_file with
    | none => (false, st0)
    | some p => add_file st0 p.file_path p.content
  | .removeFile =>
    match a.remove_file with
    | none => (false, st0)
    | some p => remove_file st0 p.file_path

/-- Models `", ".join(l)`. -/
def joinCommas : List String → String
  | [] => ""
  | [c] => c
  | c :: rest => c ++ ", " ++ joinCommas rest

/-- The `target_info` string computed in `run` (identical in both
variants). -/
def targetInfo (a : AgentAction) : String :=
  match a.action_type, a.explore, a.edit_file, a.add_file, a.remove_file with
  | .explore, some e, _, _, _ =>
    "dirs: " ++
      (if e.directories.isEmpty then "none"
       else joinCommas e.directories) ++
    ", files: " ++
      (if e.files.isEmpty then "none" else toString e.files.length ++ " files")
  | .editFile, _, some p, _, _ => p.file_path
  | .addFile, _, _, some p, _ => p.file_path
  | .removeFile, _, _, _, some p => p.file_path
  | _, _, _, _, _ => "N/A"

/-- One entry of `actions_taken`. -/
structure RunEntry where
  iteration : Nat
  action : String
  target : String
  success : Bool
  observation : String
  analysis : String
  plan : String
  deriving DecidableEq, Repr

/-- The summary dict returned by `run`. -/
structure RunSummary where
  iterations : Nat
  actions_taken : List RunEntry
  files_read : Nat
  files_edited : Nat
  directories_walked : Nat
  important_findings : List String
  deriving DecidableEq, Repr

/-- The summary built after the `while` loop of `run`. -/
def mkSummary (iterations : Nat) (actions_taken : List RunEntry)
    (st : AgentState) : RunSummary :=
  { iterations := iterations,
    actions_taken := actions_taken,
    files_read := st.memory.read_files.length,
    files_edited := st.memory.edited_files.length,
    directories_walked := st.memory.walked_directories.length,
    important_findings := st.memory.important_findings }

/-- The `while iterations < max_iterations` loop of `CodeAgent.run`
(identical in both variants), generic over the action executor so the same
loop covers the eager and the deferred variant.  `oracleResp` models the
parsed structured response of the decision oracle for a given iteration
number and agent state (`None` for a failed or empty call); the remaining
budget `fuel` equals `max_iterations - iterations` so the loop is entered
exactly while `iterations < max_iterations`. -/
def runAux (oracleResp : Nat → AgentState → Option AgentAction)
    (exec : AgentAction → AgentState → Bool × AgentState) :
    Nat → Nat → AgentState → List RunEntry → RunSummary
  | 0, iterations, st, acc => mkSummary iterations acc st
  | fuel + 1, iterations, st, acc =>
    let iterations' := iterations + 1
    match decide_next_action (oracleResp iterations' st) with
    | none => mkSummary iterations' acc st
    | some a =>
      let r := exec a st
      runAux oracleResp exec fuel iterations' r.2
        (acc ++ [{ iteration := iterations',
                   action := a.action_type.asString,
                   target := targetInfo a,
                   success := r.1,
                   observation := a.thought_process.observation,
                   analysis := a.thought_process.analysis,
                   plan := a.thought_process.plan }])

/-- `CodeAgent.run`. -/
def run (oracleResp : Nat → AgentState → Option AgentAction)
    (exec : AgentAction → AgentState → Bool × AgentState)
    (st : AgentState) (max_iterations : Nat) : RunSummary :=
  runAux oracleResp exec max_iterations 0 st []

/-! ### Helper lemmas about the Python-set and Python-dict models -/

theorem lookup_cons_eq (a k b : String) (rest : List (String × String)) :
    List.lookup a ((k, b) :: rest) =
      if a = k then some b else List.lookup a rest := by
  by_cases h : a = k
  · simp [List.lookup, h]
  · simp [List.lookup, h, beq_false_of_ne h]

theorem mem_insertSet_self (x : String) (l : List String) :
    x ∈ insertSet x l := by
  unfold insertSet
  split <;> simp_all

theorem contains_insertSet_self (x : String) (l : List String) :
    (insertSet x l).contains x = true :=
  List.elem_eq_true_of_mem (mem_insertSet_self x l)

theorem lookup_map_overwrite (k v : String) (m : List (String × String))
    (h : (m.lookup k).isSome) :
    (m.map (fun kv => if kv.1 = k then (k, v) else kv)).lookup k = some v := by
  induction m with
  | nil => simp at h
  | cons a rest ih =>
    by_cases hk : a.1 = k
    · simp only [List.map_cons, if_pos hk]
      rw [lookup_cons_eq, if_pos rfl]
    · simp only [List.map_cons, if_neg hk]
      rw [show a = (a.1, a.2) from rfl, lookup_cons_eq,
        if_neg (Ne.symm hk)] at h
      rw [show a = (a.1, a.2) from rfl, lookup_cons_eq, if_neg (Ne.symm hk)]
      exact ih h

theorem lookup_append_missing (k v : String) (m : List (String × String))
    (h : m.lookup k = none) :
    (m ++ [(k, v)]).lookup k = some v := by
  induction m with
  | nil => rw [List.nil_append, lookup_cons_eq, if_pos rfl]
  | cons a rest ih =>
    rw [show a = (a.1, a.2) from rfl, lookup_cons_eq] at h
    by_cases hk : k = a.1
    · rw [if_pos hk] at h; cases h
    · rw [if_neg hk] at h
      rw [show a = (a.1, a.2) from rfl, List.cons_append, lookup_cons_eq,
        if_neg hk]
      exact ih h

theorem lookup_dictInsert_self (k v : String) (m : List (String × String)) :
    (dictInsert k v m).lookup k = some v := by
  unfold dictInsert
  by_cases h : (m.lookup k).isSome
  · rw [if_pos h]
    exact lookup_map_overwrite k v m h
  · rw [if_neg h]
    exact lookup_append_missing k v m (Option.not_isSome_iff_eq_none.mp h)

theorem lookup_dictEraseKey_self (k : String) (m : List (String × String)) :
    (dictEraseKey k m).lookup k = none := by
  unfold dictEraseKey
  induction m with
  | nil => simp
  | cons a rest ih =>
    by_cases hk : a.1 = k
    · simpa [hk] using ih
    · simp only [List.filter_cons]
      rw [if_pos (by simpa using hk)]
      rw [show a = (a.1, a.2) from rfl, lookup_cons_eq, if_neg (Ne.symm hk)]
      exact ih

theorem not_mem_setErase_self (x : String) (l : List String) :
    x ∉ setErase x l := by
  unfold setErase
  simp [List.mem_filter]

/-! ### C1: the Path Guard decides by string prefix of the canonical forms
and fails closed on resolution errors -/

/-- C1.  `_validate_path_in_repo` returns `true` iff the resolution step
succeeds with a canonical candidate string that is prefixed by the canonical
root string; whenever resolution errors, it returns `false` (the exception
is absorbed, never escaping).  With the in-model lexical resolver this is
exactly the `startswith` comparison of `str((repo / p).resolve())` against
`str(repo.resolve())`. -/
theorem c1_path_guard_prefix_and_fail_closed
    (resolver : String → Except Unit (String × String)) (p : String) :
    (validate_path_in_repo_gen resolver p = true ↔
      ∃ c r, resolver p = .ok (c, r) ∧ pyStartsWith c r = true) ∧
    (∀ e, resolver p = .error e → validate_path_in_repo_gen resolver p = false) ∧
    (∀ repo, validate_path_in_repo_gen (lexResolver repo) p =
      pyStartsWith (render (resolveComps repo p)) (render (canon repo))) := by
  refine ⟨?_, ?_, fun repo => rfl⟩
  · unfold validate_path_in_repo_gen
    constructor
    · intro h
      cases hres : resolver p with
      | ok cr =>
        refine ⟨cr.1, cr.2, by simpa using hres, ?_⟩
        rw [hres] at h
        exact h
      | error e => rw [hres] at h; simp at h
    · rintro ⟨c, r, hres, hpre⟩
      rw [hres]
      exact hpre
  · intro e hres
    unfold validate_path_in_repo_gen
    rw [hres]

/-- Witness for C1: a concrete in-repo path accepted by the guard under the
lexical resolver, and a resolver that errors making the guard return
`false`. -/
theorem c1_path_guard_witness :
    validate_path_in_repo_gen (lexResolver ["x", "repo"]) "subdir/file.txt"
        = true ∧
    validate_path_in_repo_gen (fun _ => .error ()) "subdir/file.txt" = false :=
  ⟨(c1_path_guard_prefix_and_fail_closed
      (lexResolver ["x", "repo"]) "subdir/file.txt").1.mpr
      ⟨_, _, rfl, by decide⟩,
   (c1_path_guard_prefix_and_fail_closed
      (fun _ => .error ()) "subdir/file.txt").2.1 () rfl⟩

/-! ### C9: the raw string-prefix containment accepts a sibling of the root -/

/-- C9.  The candidate `../repo2/f` under root `/x/repo` canonicalizes to
`/x/repo2/f`, whose components do not extend the root's components (it lies
outside the root's directory tree), yet the guard accepts it because the raw
rendered string `/x/repo2/f` starts with `/x/repo` (no trailing separator is
enforced). -/
theorem c9_guard_accepts_sibling_of_root :
    validate_path_in_repo_gen (lexResolver ["x", "repo"]) "../repo2/f"
        = true ∧
    resolveComps ["x", "repo"] "../repo2/f" = ["x", "repo2", "f"] ∧
    List.isPrefixOf ["x", "repo"] ["x", "repo2", "f"] = false ∧
    pyStartsWith (render ["x", "repo2", "f"]) (render ["x", "repo"]) = true := by
  refine ⟨by decide, by decide, by decide, by decide⟩

/-! ### C6: editing a nonexistent file fails and changes nothing -/

/-- C6.  If the joined path of `p` does not exist on the filesystem,
`edit_file` returns `False` and leaves the entire agent state — filesystem,
`file_contents_cache` and `edited_files` included — unchanged. -/
theorem c6_edit_missing_file_fails (st : AgentState) (p c : String)
    (h : st.fs.pathExists (pyJoin st.repoStr p) = false) :
    edit_file st p c = (false, st) := by
  unfold edit_file
  split_ifs with h1 h2 h3 <;> simp_all

/-- Witness for C6 at a concrete state with no file at `/repo/missing.txt`. -/
theorem c6_edit_missing_file_fails_witness :
    edit_file { repo := ["repo"],
                fs := { files := [("/repo/README.md", "R")], dirs := ["/repo"] } }
        "missing.txt" "new" =
      (false, { repo := ["repo"],
                fs := { files := [("/repo/README.md", "R")], dirs := ["/repo"] } }) :=
  c6_edit_missing_file_fails _ "missing.txt" "new" (by decide)

/-! ### C3: walking a directory twice is an idempotent no-op, a missing
directory is never recorded -/

/-- A concrete repository state shared by several witnesses: root `/repo`
containing `README.md` and `src/a.py`, `src/b.py`. -/
def exState : AgentState :=
  { repo := ["repo"],
    fs := { files := [("/repo/src/a.py", "A"), ("/repo/src/b.py", "B"),
                      ("/repo/README.md", "R")],
            dirs := ["/repo", "/repo/src"] } }

/-- C3.  For an existing directory, walking it a second time in the same run
returns the empty list and leaves the state — `walked_directories`
included — unchanged (so no duplicate entry is recorded and no error is
raised); for a nonexistent directory, `walk_directory` returns the empty
list without recording anything. -/
theorem c3_walk_twice_noop_and_missing_not_recorded
    (st : AgentState) (d : String) :
    (st.fs.pathExists (if d = "" then st.repoStr else pyJoin st.repoStr d)
        = true →
      walk_directory (walk_directory st d).2 d = ([], (walk_directory st d).2)) ∧
    (st.fs.pathExists (if d = "" then st.repoStr else pyJoin st.repoStr d)
        = false →
      walk_directory st d = ([], st)) := by
  constructor
  · intro hex
    by_cases hw : st.memory.walked_directories.contains
        (if d = "" then st.repoStr else pyJoin st.repoStr d)
    · have h1 : walk_directory st d = ([], st) := by
        unfold walk_directory
        simp only [hex, hw, Bool.not_true, Bool.false_eq_true, if_false,
          if_true]
      rw [h1]
      exact h1
    · have h1 : (walk_directory st d).2 =
          { st with memory := { st.memory with
              walked_directories := insertSet
                (if d = "" then st.repoStr else pyJoin st.repoStr d)
                st.memory.walked_directories } } := by
        unfold walk_directory
        simp only [hex, Bool.not_true, Bool.false_eq_true, if_false]
        rw [if_neg (by simpa using hw)]
      rw [h1]
      unfold walk_directory
      have hrepo : ({ st with memory := { st.memory with
          walked_directories := insertSet
            (if d = "" then st.repoStr else pyJoin st.repoStr d)
            st.memory.walked_directories } } : AgentState).repoStr
          = st.repoStr := rfl
      rw [hrepo]
      simp only [hex, Bool.not_true, Bool.false_eq_true, if_false]
      rw [if_pos (contains_insertSet_self _ _)]
  · intro hex
    unfold walk_directory
    simp only [hex, Bool.not_false, if_true]

/-- Witness for C3: walking `src` twice under `/repo` yields `[]` the second
time with the state untouched, and walking the missing directory `nodir`
yields `[]` without recording it. -/
theorem c3_walk_twice_witness :
    walk_directory (walk_directory exState "src").2 "src"
        = ([], (walk_directory exState "src").2) ∧
    walk_directory exState "nodir" = ([], exState) :=
  ⟨(c3_walk_twice_noop_and_missing_not_recorded exState "src").1 (by decide),
   (c3_walk_twice_noop_and_missing_not_recorded exState "nodir").2 (by decide)⟩

/-- Reading a single path that is not in `read_files` and is not a regular
file on disk returns the empty mapping and leaves the state unchanged. -/
theorem read_files_single_skip (s : AgentState) (p : String)
    (hr : p ∉ s.memory.read_files)
    (hnf : s.fs.isFile (pyJoin s.repoStr p) = false) :
    read_files_op s [p] = ([], s) := by
  by_cases hex : s.fs.pathExists (pyJoin s.repoStr p)
  · simp [read_files_op, read_files_go, hr, hex, hnf]
  · have hex' : s.fs.pathExists (pyJoin s.repoStr p) = false :=
      Bool.not_eq_true _ ▸ eq_false_of_ne_true hex
    simp [read_files_op, read_files_go, hr, hnf, hex']

/-! ### C2: Add followed by ReadFiles is NOT served from the cache -/

/-- Empty repository at `/repo`, for the C2 scenario. -/
def c2State : AgentState := { repo := ["repo"], fs := { files := [], dirs := ["/repo"] } }

/-- State after `add_file c2State "a.txt" "X"`. -/
def c2AfterAdd : AgentState := (add_file c2State "a.txt" "X").2

/-- `c2AfterAdd` after the file is deleted out-of-band (direct filesystem
mutation, bypassing the agent). -/
def c2AfterDelete : AgentState :=
  { c2AfterAdd with fs := c2AfterAdd.fs.eraseFile "/repo/a.txt" }

/-- Counterexample to C2: a successful `Add("a.txt", "X")` followed by an
out-of-band delete of the file makes `ReadFiles(["a.txt"])` return the empty
mapping, not `{a.txt: "X"}` — the cache is not consulted because `add_file`
never adds the path to `read_files`, and `read_files` requires membership in
both `read_files` and the cache to serve the cached value. -/
theorem c2_add_read_counterexample :
    add_file c2State "a.txt" "X" = (true, c2AfterAdd) ∧
    c2AfterAdd.memory.file_contents_cache = [("a.txt", "X")] ∧
    (read_files_op c2AfterDelete ["a.txt"]).1 = [] ∧
    (read_files_op c2AfterDelete ["a.txt"]).1 ≠ [("a.txt", "X")] := by
  refine ⟨by decide, by decide, by decide, by decide⟩

/-- C2 as amended.  A successful `Add(p, X)` stores `X` in
`file_contents_cache` but does not add `p` to `read_files`; since
`read_files` serves the cache only for paths in both `read_files` and the
cache, a subsequent `ReadFiles([p])` after any out-of-band change that
removes the file (and given `p` was not previously read) returns the empty
mapping rather than the cached `X`. -/
theorem c2_add_read_after_delete_empty (st : AgentState) (p X : String)
    (st1 st2 : AgentState)
    (h : add_file st p X = (true, st1)) (hnr : p ∉ st.memory.read_files)
    (hm : st2.memory = st1.memory)
    (hgone : st2.fs.pathExists (pyJoin st2.repoStr p) = false) :
    st1.memory.file_contents_cache.lookup p = some X ∧
    st1.memory.read_files = st.memory.read_files ∧
    read_files_op st2 [p] = ([], st2) := by
  unfold add_file at h
  split_ifs at h with h1 h2
  · simp at h
  · simp at h
  · injection h with hb hst
    subst hst
    refine ⟨lookup_dictInsert_self p X _, rfl, ?_⟩
    have hr : p ∉ st2.memory.read_files := by
      rw [hm]; exact hnr
    simp [read_files_op, read_files_go, hr, hgone]

/-- Witness for the amended C2, at the concrete `/repo` scenario. -/
theorem c2_add_read_after_delete_empty_witness :
    c2AfterAdd.memory.file_contents_cache.lookup "a.txt" = some "X" ∧
    c2AfterAdd.memory.read_files = c2State.memory.read_files ∧
    read_files_op c2AfterDelete ["a.txt"] = ([], c2AfterDelete) :=
  c2_add_read_after_delete_empty c2State "a.txt" "X" c2AfterAdd c2AfterDelete
    (by decide) (by decide) rfl (by decide)

/-! ### C5: Remove purges all memory references and ReadFiles finds nothing -/

/-- C5.  A successful `remove_file p` leaves a state in which `p` is in none
of `read_files`, `edited_files`, `file_contents_cache`, and a subsequent
`ReadFiles([p])` returns the empty mapping (and does not change the state),
rather than any cached stale value. -/
theorem c5_remove_purges_and_read_empty (st : AgentState) (p : String)
    (st1 : AgentState) (h : remove_file st p = (true, st1)) :
    p ∉ st1.memory.read_files ∧ p ∉ st1.memory.edited_files ∧
    st1.memory.file_contents_cache.lookup p = none ∧
    read_files_op st1 [p] = ([], st1) := by
  unfold remove_file at h
  split_ifs at h with h1 h2 h3
  · simp at h
  · simp at h
  · simp at h
  · injection h with hb hst
    subst hst
    refine ⟨not_mem_setErase_self p _, not_mem_setErase_self p _,
      lookup_dictEraseKey_self p _, ?_⟩
    refine read_files_single_skip _ p (not_mem_setErase_self p _) ?_
    show (st.fs.eraseFile (pyJoin st.repoStr p)).isFile
        (pyJoin st.repoStr p) = false
    simp [FS.eraseFile, FS.isFile, lookup_dictEraseKey_self]

/-- A repository state in which `f.txt` exists and is tracked by every part
of memory, for the C5 witness. -/
def c5State : AgentState :=
  { repo := ["repo"],
    fs := { files := [("/repo/f.txt", "F")], dirs := ["/repo"] },
    memory := { read_files := ["f.txt"], edited_files := ["f.txt"],
                file_contents_cache := [("f.txt", "F")] } }

/-- State after `remove_file c5State "f.txt"`. -/
def c5After : AgentState := (remove_file c5State "f.txt").2

/-- Witness for C5 at the concrete `/repo/f.txt` scenario. -/
theorem c5_remove_purges_witness :
    "f.txt" ∉ c5After.memory.read_files ∧
    "f.txt" ∉ c5After.memory.edited_files ∧
    c5After.memory.file_contents_cache.lookup "f.txt" = none ∧
    read_files_op c5After ["f.txt"] = ([], c5After) :=
  c5_remove_purges_and_read_empty c5State "f.txt" c5After (by decide)

/-! ### C4: the loop exhausts exactly the iteration budget when the oracle
never signals completion -/

/-- Loop invariant for C4: with a budget of `fuel` remaining and the oracle
always producing a non-complete action, the final iteration counter is the
current counter plus the whole remaining budget. -/
theorem runAux_iterations_exhaust
    (oracleResp : Nat → AgentState → Option AgentAction)
    (exec : AgentAction → AgentState → Bool × AgentState)
    (hor : ∀ i s, ∃ a, oracleResp i s = some a ∧ a.complete = false) :
    ∀ fuel iterations st acc,
      (runAux oracleResp exec fuel iterations st acc).iterations
        = iterations + fuel := by
  intro fuel
  induction fuel with
  | zero => intro iterations st acc; rfl
  | succ n ih =>
    intro iterations st acc
    obtain ⟨a, ha, hc⟩ := hor (iterations + 1) st
    simp only [runAux, ha, decide_next_action, hc, Bool.false_eq_true,
      if_false]
    rw [ih]
    omega

/-- C4.  For every iteration budget and every oracle that never signals
completion (each call parses to an action with `complete=False`), `run`
terminates (it is a total function of the budget) and the summary's
`iterations` field equals exactly `max_iterations`.  This holds for any
action executor, hence for both the eager and the deferred variant. -/
theorem c4_run_exhausts_budget
    (oracleResp : Nat → AgentState → Option AgentAction)
    (exec : AgentAction → AgentState → Bool × AgentState)
    (st : AgentState) (max_iterations : Nat)
    (hor : ∀ i s, ∃ a, oracleResp i s = some a ∧ a.complete = false) :
    (run oracleResp exec st max_iterations).iterations = max_iterations := by
  unfold run
  rw [runAux_iterations_exhaust oracleResp exec hor]
  omega

/-- A non-complete explore action with empty payload, for the loop
witnesses. -/
def exploreNothing : AgentAction :=
  { action_type := .explore, explore := some {} }

/-- Witness for C4: an oracle that always returns `exploreNothing` drives a
budget-3 run of the eager executor to exactly 3 iterations. -/
theorem c4_run_exhausts_budget_witness :
    (run (fun _ _ => some exploreNothing) execute_action exState 3).iterations
      = 3 :=
  c4_run_exhausts_budget (fun _ _ => some exploreNothing) execute_action
    exState 3 (fun _ _ => ⟨exploreNothing, rfl, rfl⟩)

/-! ### C8: a complete or failed oracle call stops the loop with no new run
record entry -/

/-- C8.  `decide_next_action` maps a missing/failed oracle response and a
response with `complete=True` both to `None`; and whenever the decision at
the current iteration is `None` (budget permitting at least one more
iteration), the loop stops at that iteration: the summary records the
incremented iteration count, the run record receives zero new entries for
that final call, and no action is executed (the summary is built from the
unchanged state). -/
theorem c8_complete_or_failed_call_stops_loop :
    (decide_next_action none = none) ∧
    (∀ a : AgentAction, a.complete = true → decide_next_action (some a) = none) ∧
    (∀ (oracleResp : Nat → AgentState → Option AgentAction)
       (exec : AgentAction → AgentState → Bool × AgentState)
       (fuel iterations : Nat) (st : AgentState) (acc : List RunEntry),
       decide_next_action (oracleResp (iterations + 1) st) = none →
       runAux oracleResp exec (fuel + 1) iterations st acc
         = mkSummary (iterations + 1) acc st) := by
  refine ⟨rfl, ?_, ?_⟩
  · intro a hc
    simp [decide_next_action, hc]
  · intro oracleResp exec fuel iterations st acc hdec
    simp only [runAux, hdec]

/-- An action carrying `complete=True`, for the C8 witness. -/
def completeAct : AgentAction := { action_type := .explore, complete := true }

/-- Witness for C8: with an oracle that immediately signals completion, a
budget-3 run stops after its first decision with an empty run record. -/
theorem c8_complete_stops_loop_witness :
    decide_next_action (some completeAct) = none ∧
    runAux (fun _ _ => some completeAct) execute_action 3 0 exState []
      = mkSummary 1 [] exState :=
  ⟨c8_complete_or_failed_call_stops_loop.2.1 completeAct rfl,
   c8_complete_or_failed_call_stops_loop.2.2 (fun _ _ => some completeAct)
     execute_action 2 0 exState []
     (c8_complete_or_failed_call_stops_loop.2.1 completeAct rfl)⟩

/-! ### C10: the deferred variant's explore action always reports success -/

/-- C10.  In the deferred (`code_agent_poml.py`) variant, executing an
explore action whose payload is present returns `True` for every agent
state — in particular even when every requested directory and file is
rejected by the Path Guard or does not exist, since rejected and missing
targets are merely skipped. -/
theorem c10_poml_explore_always_succeeds (st : AgentState) (a : AgentAction)
    (e : ExploreAction) (ht : a.action_type = ActionType.explore)
    (he : a.explore = some e) :
    (execute_action_poml a st).1 = true := by
  cases a with
  | mk tp at_ ex ed ad rm fnd cmp =>
    simp only at ht he
    subst ht
    subst he
    simp [execute_action_poml]

/-- An explore action whose only directory escapes the repository and whose
only file does not exist, for the C10 witness. -/
def rejectedExplore : AgentAction :=
  { action_type := .explore,
    explore := some { directories := ["../outside"], files := ["missing.txt"] } }

/-- Witness for C10: with every explore target rejected by the guard or
missing, the deferred executor still reports success, and records no
requested directory or file. -/
theorem c10_poml_explore_always_succeeds_witness :
    (execute_action_poml rejectedExplore exState).1 = true ∧
    (execute_action_poml rejectedExplore exState).2.requested_dirs = [] ∧
    (execute_action_poml rejectedExplore exState).2.requested_files = [] :=
  ⟨c10_poml_explore_always_succeeds exState rejectedExplore _ rfl rfl,
   by decide, by decide⟩

/-! ### C7: eager Explore truncates the combined candidate list before any
reading happens -/

theorem keys_dictInsert (k v x : String) (m : List (String × String))
    (h : x ∈ (dictInsert k v m).map Prod.fst) :
    x = k ∨ x ∈ m.map Prod.fst := by
  unfold dictInsert at h
  by_cases hs : (m.lookup k).isSome
  · rw [if_pos hs, List.map_map] at h
    rcases List.mem_map.mp h with ⟨kv, hkv, hx⟩
    by_cases hk : kv.1 = k
    · left
      simp only [Function.comp, if_pos hk] at hx
      exact hx.symm
    · right
      simp only [Function.comp, if_neg hk] at hx
      exact hx ▸ List.mem_map_of_mem Prod.fst hkv
  · rw [if_neg hs, List.map_append, List.mem_append] at h
    cases h with
    | inl h => exact Or.inr h
    | inr h => left; simpa using h

theorem length_dictInsert (k v : String) (m : List (String × String)) :
    (dictInsert k v m).length ≤ m.length + 1 := by
  unfold dictInsert
  by_cases hs : (m.lookup k).isSome
  · rw [if_pos hs, List.length_map]; omega
  · rw [if_neg hs, List.length_append]; simp

/-- Every entry of the mapping produced by the `read_files` loop comes from
the accumulated dict or from the requested path list: no path outside the
request list is ever read. -/
theorem read_files_go_keys (paths : List String) :
    ∀ (s : AgentState) (acc : List (String × String)),
      ∀ kv ∈ (read_files_go s acc paths).1,
        kv.1 ∈ acc.map Prod.fst ∨ kv.1 ∈ paths := by
  induction paths with
  | nil =>
    intro s acc kv hkv
    exact Or.inl (List.mem_map_of_mem Prod.fst hkv)
  | cons p rest ih =>
    intro s acc kv hkv
    unfold read_files_go at hkv
    have assemble : ∀ v : String,
        kv.1 ∈ (dictInsert p v acc).map Prod.fst ∨ kv.1 ∈ rest →
        kv.1 ∈ acc.map Prod.fst ∨ kv.1 ∈ p :: rest := by
      intro v
      rintro (hin | hin)
      · rcases keys_dictInsert _ _ _ _ hin with hk | hk
        · exact Or.inr (hk ▸ List.mem_cons_self p rest)
        · exact Or.inl hk
      · exact Or.inr (List.mem_cons_of_mem p hin)
    split at hkv
    · exact assemble _ (ih _ _ kv hkv)
    · split at hkv
      · rcases ih _ _ kv hkv with hin | hin
        · exact Or.inl hin
        · exact Or.inr (List.mem_cons_of_mem p hin)
      · split at hkv
        · rcases ih _ _ kv hkv with hin | hin
          · exact Or.inl hin
          · exact Or.inr (List.mem_cons_of_mem p hin)
        · split at hkv
          · exact assemble _ (ih _ _ kv hkv)
          · rcases ih _ _ kv hkv with hin | hin
            · exact Or.inl hin
            · exact Or.inr (List.mem_cons_of_mem p hin)

/-- The mapping produced by the `read_files` loop grows by at most one entry
per requested path. -/
theorem read_files_go_length (paths : List String) :
    ∀ (s : AgentState) (acc : List (String × String)),
      (read_files_go s acc paths).1.length ≤ acc.length + paths.length := by
  induction paths with
  | nil => intro s acc; simp [read_files_go]
  | cons p rest ih =>
    intro s acc
    unfold read_files_go
    split
    · calc (read_files_go _ (dictInsert p _ acc) rest).1.length
          ≤ (dictInsert p _ acc).length + rest.length := ih _ _
        _ ≤ (acc.length + 1) + rest.length :=
            Nat.add_le_add_right (length_dictInsert _ _ _) _
        _ = acc.length + (rest.length + 1) := by omega
    · split
      · exact le_trans (ih _ _) (by simp only [List.length_cons]; omega)
      · split
        · exact le_trans (ih _ _) (by simp only [List.length_cons]; omega)
        · split
          · calc (read_files_go _ (dictInsert p _ acc) rest).1.length
                ≤ (dictInsert p _ acc).length + rest.length := ih _ _
              _ ≤ (acc.length + 1) + rest.length :=
                  Nat.add_le_add_right (length_dictInsert _ _ _) _
              _ = acc.length + (rest.length + 1) := by omega
          · exact le_trans (ih _ _) (by simp only [List.length_cons]; omega)

/-- Defining equations of `explore_repository`: the returned
`discovered_files` is always the truncation of the deduplicated candidate
union, `files_read` counts the returned contents, and the contents are
either empty or exactly the result of reading the truncated list. -/
theorem explore_repository_eq (st : AgentState) (ds fls : List String)
    (mf : Nat) :
    (explore_repository st ds fls mf).1.discovered_files
      = (dedupFirst (fls ++ (explore_dirs_go st [] [] ds).1)).take mf ∧
    (explore_repository st ds fls mf).1.files_read
      = (explore_repository st ds fls mf).1.file_contents.length ∧
    ((explore_repository st ds fls mf).1.file_contents = [] ∨
     (explore_repository st ds fls mf).1.file_contents
       = (read_files_op (explore_dirs_go st [] [] ds).2.2
           ((dedupFirst (fls ++ (explore_dirs_go st [] [] ds).1)).take mf)).1) := by
  unfold explore_repository
  by_cases hem :
      (dedupFirst (fls ++ (explore_dirs_go st [] [] ds).1)).isEmpty = true
  · rw [if_pos hem]
    exact ⟨rfl, rfl, Or.inl rfl⟩
  · rw [if_neg hem]
    exact ⟨rfl, rfl, Or.inr rfl⟩

/-- C7.  In the eager variant, `explore_repository` truncates the
deduplicated union of explicit and discovered files to `max_files` before
any reading occurs: the returned `discovered_files` list never exceeds
`max_files`, `files_read` counts exactly the returned contents, is itself
bounded by `max_files`, and every returned content entry belongs to the
truncated candidate list (files beyond the cap are never read).  In the
concrete scenario `Explore(directories=["src"], files=["README.md"],
max_files=1)` over `/repo` where `Walk("src")` discovers two files, the
combined candidate list has 3 entries, is truncated to `["README.md"]`,
exactly one file's content is returned, `files_read = 1`, and neither
discovered `src` file is ever read. -/
theorem c7_explore_truncates_before_reading :
    (∀ (st : AgentState) (ds fls : List String) (mf : Nat),
       ((explore_repository st ds fls mf).1.discovered_files.length ≤ mf) ∧
       ((explore_repository st ds fls mf).1.files_read
          = (explore_repository st ds fls mf).1.file_contents.length) ∧
       ((explore_repository st ds fls mf).1.files_read ≤ mf) ∧
       (∀ kv ∈ (explore_repository st ds fls mf).1.file_contents,
          kv.1 ∈ (explore_repository st ds fls mf).1.discovered_files)) ∧
    ((dedupFirst (["README.md"] ++ (walk_directory exState "src").1)).length
        = 3 ∧
     (explore_repository exState ["src"] ["README.md"] 1).1.discovered_files
        = ["README.md"] ∧
     (explore_repository exState ["src"] ["README.md"] 1).1.file_contents
        = [("README.md", "R")] ∧
     (explore_repository exState ["src"] ["README.md"] 1).1.files_read = 1 ∧
     "src/a.py" ∉
       (explore_repository exState ["src"] ["README.md"] 1).2.memory.read_files ∧
     "src/b.py" ∉
       (explore_repository exState ["src"] ["README.md"] 1).2.memory.read_files) := by
  constructor
  · intro st ds fls mf
    obtain ⟨hdisc, hcount, hcont⟩ := explore_repository_eq st ds fls mf
    refine ⟨?_, hcount, ?_, ?_⟩
    · rw [hdisc]
      exact List.length_take_le mf _
    · rw [hcount]
      rcases hcont with hc | hc
      · rw [hc]
        exact Nat.zero_le mf
      · rw [hc]
        calc (read_files_op (explore_dirs_go st [] [] ds).2.2
              ((dedupFirst (fls ++ (explore_dirs_go st [] [] ds).1)).take mf)).1.length
            ≤ ([] : List (String × String)).length +
              ((dedupFirst (fls ++ (explore_dirs_go st [] [] ds).1)).take mf).length :=
              read_files_go_length _ _ _
          _ ≤ mf := by
              simpa using List.length_take_le mf
                (dedupFirst (fls ++ (explore_dirs_go st [] [] ds).1))
    · intro kv hkv
      rcases hcont with hc | hc
      · rw [hc] at hkv
        cases hkv
      · rw [hc] at hkv
        rcases read_files_go_keys _ _ _ kv hkv with hin | hin
        · cases hin
        · rw [hdisc]
          exact hin
  · refine ⟨by decide, by decide, by decide, by decide, by decide, by decide⟩

/-- Witness for C7: the general bound applied at the concrete `/repo`
scenario, discharging the content-membership hypothesis at the single entry
actually returned. -/
theorem c7_explore_truncates_witness :
    (explore_repository exState ["src"] ["README.md"] 1).1.files_read ≤ 1 ∧
    "README.md" ∈
      (explore_repository exState ["src"] ["README.md"] 1).1.discovered_files :=
  ⟨(c7_explore_truncates_before_reading.1 exState ["src"] ["README.md"] 1).2.2.1,
   (c7_explore_truncates_before_reading.1 exState ["src"] ["README.md"] 1).2.2.2
     ("README.md", "R") (by decide)⟩
